import Mathlib

/-!
Verification of the nano-banana-cli image pipeline against its design note.

The Go source is shallowly embedded as follows:
* a decoded raster is a width, a height and a pixel function returning the
  8-bit RGBA values that `color.Color.RGBA()` followed by `>> 8` yields
  (these are the only values the pixel loops ever observe);
* Go `int` arithmetic is `ℤ`, with Go's truncating division/modulo rendered
  as `Int.tdiv` / `Int.tmod`; image dimensions (`Bounds().Dx()/Dy()`),
  which are never negative for decoded images, are `ℕ`;
* the `float64` arithmetic in `colorDistance` and the tolerance threshold is
  rendered exactly in `ℚ`.  All intermediate float values there are integers
  below `2^53` except for the final division by 3 and the threshold product,
  whose rounding errors (< 1e-11) are far smaller than the minimal nonzero
  gap `1/300` between the two compared rationals, so the float comparison and
  the rational comparison agree for integer tolerances in the documented
  0–100 range;
* Go standard-library string helpers used by the parsing code
  (`strings.Split`, `strings.TrimSpace`, `strconv.Atoi`) are modelled as
  structural recursions on `List Char` with Go's documented semantics;
* third-party `imaging` library calls are an abstract interface
  (`ImagingLib`): the repository only orchestrates them.
-/

/-! ### Chroma-key engine (cmd/nanobanana: transparency part of main.go) -/

/-- An RGB target color as produced by `parseColor` (8-bit channels). -/
structure RGB where
  r : ℕ
  g : ℕ
  b : ℕ
deriving DecidableEq

/-- An 8-bit RGBA pixel, the view of `pixel.RGBA()` after the `>> 8`
conversion performed by the pixel loops. -/
structure NRGBA where
  r : ℕ
  g : ℕ
  b : ℕ
  a : ℕ
deriving DecidableEq

/-- A decoded raster image. -/
structure Raster where
  width : ℕ
  height : ℕ
  pix : ℕ → ℕ → NRGBA

/-- Model of `colorDistance` (main.go): `(dr*dr + dg*dg + db*db) / 3.0`. -/
def colorDistance (r g b : ℕ) (target : RGB) : ℚ :=
  let dr : ℚ := (r : ℚ) - (target.r : ℚ)
  let dg : ℚ := (g : ℚ) - (target.g : ℚ)
  let db : ℚ := (b : ℚ) - (target.b : ℚ)
  (dr * dr + dg * dg + db * db) / 3

/-- The tolerance threshold of `MakeTransparent`:
`float64(opts.Tolerance) / 100.0 * 255.0`. -/
def toleranceThreshold (tolerance : ℤ) : ℚ :=
  (tolerance : ℚ) / 100 * 255

/-- The per-pixel body of the `MakeTransparent` loop: if the pixel is within
tolerance of the target, write the RGB channels with alpha 0, otherwise write
the pixel back unchanged. -/
def makeTransparentPixel (target : RGB) (tolerance : ℤ) (p : NRGBA) : NRGBA :=
  if colorDistance p.r p.g p.b target ≤ toleranceThreshold tolerance then
    ⟨p.r, p.g, p.b, 0⟩
  else
    ⟨p.r, p.g, p.b, p.a⟩

/-- Model of `MakeTransparent` (main.go): the output raster has the same bounds and
each pixel processed by the loop body. -/
def MakeTransparent (img : Raster) (target : RGB) (tolerance : ℤ) : Raster :=
  { width := img.width
    height := img.height
    pix := fun x y => makeTransparentPixel target tolerance (img.pix x y) }

lemma div_three_le_iff (S T : ℤ) :
    (S : ℚ) / 3 ≤ (T : ℚ) / 100 * 255 ↔ 100 * S ≤ 765 * T := by
  constructor
  · intro h
    have h2 : ((100 * S : ℤ) : ℚ) ≤ ((765 * T : ℤ) : ℚ) := by push_cast; linarith
    exact_mod_cast h2
  · intro h
    have h2 : ((100 * S : ℤ) : ℚ) ≤ ((765 * T : ℤ) : ℚ) := by exact_mod_cast h
    push_cast at h2
    linarith

/-- The matching test, restated over `ℤ` (multiply through by 300). -/
lemma colorDistance_le_iff (r g b : ℕ) (target : RGB) (tolerance : ℤ) :
    colorDistance r g b target ≤ toleranceThreshold tolerance ↔
      100 * (((r : ℤ) - target.r) * ((r : ℤ) - target.r) +
             ((g : ℤ) - target.g) * ((g : ℤ) - target.g) +
             ((b : ℤ) - target.b) * ((b : ℤ) - target.b)) ≤ 765 * tolerance := by
  have hd : colorDistance r g b target =
      ((((r : ℤ) - target.r) * ((r : ℤ) - target.r) +
        ((g : ℤ) - target.g) * ((g : ℤ) - target.g) +
        ((b : ℤ) - target.b) * ((b : ℤ) - target.b) : ℤ) : ℚ) / 3 := by
    unfold colorDistance
    push_cast
    ring
  rw [hd, toleranceThreshold, div_three_le_iff]

/-- A 1×1 source raster whose only pixel is fully transparent black, the
8-bit view of any decoded pixel whose alpha is zero (`RGBA()` is
alpha-premultiplied, so zero alpha forces zero color channels). -/
def alreadyTransparentImg : Raster :=
  { width := 1, height := 1, pix := fun _ _ => ⟨0, 0, 0, 0⟩ }

/-- C1 (counterexample): with target white and even the maximal tolerance
100, the already-transparent pixel of `alreadyTransparentImg` is farther from
the target than the threshold, yet the output pixel's alpha is 0 — so output
alpha is *not* zero exactly when the distance is within the threshold. -/
theorem C1_counterexample :
    ¬ colorDistance 0 0 0 ⟨255, 255, 255⟩ ≤ toleranceThreshold 100 ∧
      ((MakeTransparent alreadyTransparentImg ⟨255, 255, 255⟩ 100).pix 0 0).a = 0 := by
  have hd : ¬ colorDistance 0 0 0 ⟨255, 255, 255⟩ ≤ toleranceThreshold 100 := by
    rw [colorDistance_le_iff]
    decide
  refine ⟨hd, ?_⟩
  show (makeTransparentPixel ⟨255, 255, 255⟩ 100 ⟨0, 0, 0, 0⟩).a = 0
  rw [makeTransparentPixel, if_neg hd]

/-- C1 (amended): a pixel of the `MakeTransparent` output has alpha zero
exactly when the average of squared per-channel differences from the target
is at most `tolerance / 100 * 255` **or the source pixel's alpha was already
zero**; and every pixel keeps its R, G, B channel values unchanged. -/
theorem C1_alpha_zero_iff (img : Raster) (target : RGB) (tolerance : ℤ) (x y : ℕ) :
    (((MakeTransparent img target tolerance).pix x y).a = 0 ↔
      colorDistance (img.pix x y).r (img.pix x y).g (img.pix x y).b target ≤
          toleranceThreshold tolerance ∨ (img.pix x y).a = 0) ∧
    ((MakeTransparent img target tolerance).pix x y).r = (img.pix x y).r ∧
    ((MakeTransparent img target tolerance).pix x y).g = (img.pix x y).g ∧
    ((MakeTransparent img target tolerance).pix x y).b = (img.pix x y).b := by
  simp only [MakeTransparent, makeTransparentPixel]
  by_cases h : colorDistance (img.pix x y).r (img.pix x y).g (img.pix x y).b target ≤
      toleranceThreshold tolerance
  · rw [if_pos h]
    simp [h]
  · rw [if_neg h]
    simp [h]

/-- C2: every pixel that is not within tolerance of the target color is
written back with its original color channels and its original alpha value
(a source without an alpha channel reads as alpha 255, which is preserved). -/
theorem C2_nonmatching_preserved (img : Raster) (target : RGB) (tolerance : ℤ)
    (x y : ℕ)
    (h : ¬ colorDistance (img.pix x y).r (img.pix x y).g (img.pix x y).b target ≤
        toleranceThreshold tolerance) :
    (MakeTransparent img target tolerance).pix x y = img.pix x y := by
  show makeTransparentPixel target tolerance (img.pix x y) = img.pix x y
  rw [makeTransparentPixel, if_neg h]

/-- A 1×1 fully visible source pixel (10, 20, 30, 255) used to witness C2. -/
def solidImg : Raster :=
  { width := 1, height := 1, pix := fun _ _ => ⟨10, 20, 30, 255⟩ }

/-- Witness for C2 at a concrete input: target black, tolerance 0, a pixel
that does not match; it passes through unchanged. -/
theorem C2_witness :
    (MakeTransparent solidImg ⟨0, 0, 0⟩ 0).pix 0 0 = solidImg.pix 0 0 :=
  C2_nonmatching_preserved solidImg ⟨0, 0, 0⟩ 0 0 0
    (by rw [colorDistance_le_iff]; decide)

/-! ### Composition engine (internal/image/combine.go)

Layout geometry of `combineHorizontal` / `combineVertical` / `combineGrid`:
the canvas dimensions and, for each input image in order, the top-left
position passed to `draw.Draw`.  Image dimensions (`Bounds().Dx()/Dy()`)
are `ℕ`; the `Gap`/`Columns` options are Go `int`, kept as `ℤ`, with Go's
truncating integer division written `Int.tdiv`. -/

/-- The width and height of one input image. -/
structure Dim where
  w : ℕ
  h : ℕ
deriving DecidableEq

/-- The top-left corner at which one input is drawn onto the canvas. -/
structure Placement where
  x : ℤ
  y : ℤ
deriving DecidableEq

/-- A combined canvas: its size and the placement of each input, in order. -/
structure Canvas where
  width : ℤ
  height : ℤ
  placements : List Placement
deriving DecidableEq

/-- Model of `calculateAlignment` (combine.go).  The Go switch has a `"center", ""`
case and a default case with the same body, collapsed here into the final
branch. -/
def calculateAlignment (containerSize itemSize : ℤ) (align : String) : ℤ :=
  if align = "start" then 0
  else if align = "end" then containerSize - itemSize
  else (containerSize - itemSize).tdiv 2

/-- The `maxHeight` accumulation of the sizing loops (`if Dy > m` update,
starting from 0). -/
def maxHeightOf (images : List Dim) : ℕ :=
  images.foldl (fun m d => max m d.h) 0

/-- The `maxWidth` accumulation of the sizing loops. -/
def maxWidthOf (images : List Dim) : ℕ :=
  images.foldl (fun m d => max m d.w) 0

/-- Model of `totalWidth` of `combineHorizontal`: each `Dx` is added, and one gap is
added for every index `i > 0`. -/
def horizTotalWidth (images : List Dim) (gap : ℤ) : ℤ :=
  match images with
  | [] => 0
  | d :: rest => (d.w : ℤ) + (rest.map (fun e => gap + (e.w : ℤ))).sum

/-- The drawing loop of `combineHorizontal`, started at `x`: each image is
placed at the running `x` with `calculateAlignment` as its `y`, and `x`
advances by the image width plus the gap.  (The Go loop skips the final gap
increment, which does not affect any placement.) -/
def horizPlacementsFrom (gap : ℤ) (maxH : ℕ) (align : String) :
    List Dim → ℤ → List Placement
  | [], _ => []
  | d :: rest, x =>
    ⟨x, calculateAlignment (maxH : ℤ) (d.h : ℤ) align⟩ ::
      horizPlacementsFrom gap maxH align rest (x + (d.w : ℤ) + gap)

/-- Model of `combineHorizontal` (combine.go). -/
def combineHorizontal (images : List Dim) (gap : ℤ) (align : String) : Canvas :=
  { width := horizTotalWidth images gap
    height := (maxHeightOf images : ℤ)
    placements := horizPlacementsFrom gap (maxHeightOf images) align images 0 }

/-- Model of `totalHeight` of `combineVertical`. -/
def vertTotalHeight (images : List Dim) (gap : ℤ) : ℤ :=
  match images with
  | [] => 0
  | d :: rest => (d.h : ℤ) + (rest.map (fun e => gap + (e.h : ℤ))).sum

/-- The drawing loop of `combineVertical`, started at `y`. -/
def vertPlacementsFrom (gap : ℤ) (maxW : ℕ) (align : String) :
    List Dim → ℤ → List Placement
  | [], _ => []
  | d :: rest, y =>
    ⟨calculateAlignment (maxW : ℤ) (d.w : ℤ) align, y⟩ ::
      vertPlacementsFrom gap maxW align rest (y + (d.h : ℤ) + gap)

/-- Model of `combineVertical` (combine.go). -/
def combineVertical (images : List Dim) (gap : ℤ) (align : String) : Canvas :=
  { width := (maxWidthOf images : ℤ)
    height := vertTotalHeight images gap
    placements := vertPlacementsFrom gap (maxWidthOf images) align images 0 }

/-- The column count of `combineGrid`: `opts.Columns` when positive,
otherwise `int(float64(n)*0.5 + 0.5)` clamped to at least 1.  For `n ≥ 0`
the float expression is computed exactly and truncates to `(n+1)/2`. -/
def gridCols (n : ℕ) (columns : ℤ) : ℤ :=
  if columns ≤ 0 then
    if ((n : ℤ) + 1).tdiv 2 < 1 then 1 else ((n : ℤ) + 1).tdiv 2
  else columns

/-- The row count of `combineGrid`: `(n + cols - 1) / cols`. -/
def gridRows (n : ℕ) (columns : ℤ) : ℤ :=
  ((n : ℤ) + gridCols n columns - 1).tdiv (gridCols n columns)

/-- The grid drawing-loop body for index `i`: cell `(i / cols, i % cols)`,
with the image centered inside the cell. -/
def gridPlacement (mcw mch : ℕ) (gap cols : ℤ) (d : Dim) (i : ℕ) : Placement :=
  let row := (i : ℤ).tdiv cols
  let col := (i : ℤ).tmod cols
  let cellX := col * ((mcw : ℤ) + gap)
  let cellY := row * ((mch : ℤ) + gap)
  ⟨cellX + ((mcw : ℤ) - (d.w : ℤ)).tdiv 2,
   cellY + ((mch : ℤ) - (d.h : ℤ)).tdiv 2⟩

/-- Model of `combineGrid` (combine.go): cell size is the maximum input size, the
canvas is `cols×cellW + (cols−1)×gap` by `rows×cellH + (rows−1)×gap`, and
image `i` is centered in cell `(i / cols, i % cols)`. -/
def combineGrid (images : List Dim) (gap : ℤ) (columns : ℤ) : Canvas :=
  let n := images.length
  let cols := gridCols n columns
  let rows := gridRows n columns
  let mcw := maxWidthOf images
  let mch := maxHeightOf images
  { width := cols * (mcw : ℤ) + (cols - 1) * gap
    height := rows * (mch : ℤ) + (rows - 1) * gap
    placements := (List.range n).map (fun i =>
      gridPlacement mcw mch gap cols (images.getD i ⟨0, 0⟩) i) }

/-- The error cases of `CombineImages` relevant to its validation logic. -/
inductive CombineError where
  | notEnoughImages
  | invalidDirection (d : String)
deriving DecidableEq

/-- Model of `CombineImages` (combine.go) on already-loaded inputs: fewer than two
images fail first; then the direction switch selects a layout, any other
direction failing.  (File loading and PNG writing are modelled separately by
`operationOutcome`.) -/
def CombineImages (images : List Dim) (direction align : String)
    (gap columns : ℤ) : Except CombineError Canvas :=
  if images.length < 2 then .error .notEnoughImages
  else if direction = "horizontal" then .ok (combineHorizontal images gap align)
  else if direction = "vertical" then .ok (combineVertical images gap align)
  else if direction = "grid" then .ok (combineGrid images gap columns)
  else .error (.invalidDirection direction)

lemma map_const_add_sum (l : List Dim) (gap : ℤ) (f : Dim → ℤ) :
    (l.map (fun e => gap + f e)).sum = gap * l.length + (l.map f).sum := by
  induction l with
  | nil => simp
  | cons d t ih =>
    simp only [List.map_cons, List.sum_cons, ih, List.length_cons]
    push_cast
    ring

lemma horizTotalWidth_eq (images : List Dim) (gap : ℤ) (hne : images ≠ []) :
    horizTotalWidth images gap =
      (images.map (fun d => (d.w : ℤ))).sum + gap * ((images.length : ℤ) - 1) := by
  match images with
  | [] => exact absurd rfl hne
  | d :: rest =>
    simp only [horizTotalWidth, map_const_add_sum, List.map_cons, List.sum_cons,
      List.length_cons]
    push_cast
    ring

lemma vertTotalHeight_eq (images : List Dim) (gap : ℤ) (hne : images ≠ []) :
    vertTotalHeight images gap =
      (images.map (fun d => (d.h : ℤ))).sum + gap * ((images.length : ℤ) - 1) := by
  match images with
  | [] => exact absurd rfl hne
  | d :: rest =>
    simp only [vertTotalHeight, map_const_add_sum, List.map_cons, List.sum_cons,
      List.length_cons]
    push_cast
    ring

lemma le_foldl_max (f : Dim → ℕ) (l : List Dim) (a : ℕ) :
    a ≤ l.foldl (fun m d => max m (f d)) a := by
  induction l generalizing a with
  | nil => exact le_refl a
  | cons d t ih => exact le_trans (le_max_left a (f d)) (ih (max a (f d)))

lemma foldl_max_le_of_mem (f : Dim → ℕ) (l : List Dim) (a : ℕ) (d : Dim)
    (hd : d ∈ l) : f d ≤ l.foldl (fun m x => max m (f x)) a := by
  induction l generalizing a with
  | nil => cases hd
  | cons e t ih =>
    rcases List.mem_cons.mp hd with h | h
    · subst h
      exact le_trans (le_max_right a (f d)) (le_foldl_max f t (max a (f d)))
    · exact ih (max a (f e)) h

lemma foldl_max_cases (f : Dim → ℕ) (l : List Dim) (a : ℕ) :
    l.foldl (fun m d => max m (f d)) a = a ∨
      ∃ d ∈ l, l.foldl (fun m x => max m (f x)) a = f d := by
  induction l generalizing a with
  | nil => exact Or.inl rfl
  | cons e t ih =>
    rcases ih (max a (f e)) with h | ⟨d, hd, h⟩
    · rcases Nat.le_total a (f e) with hle | hle
      · refine Or.inr ⟨e, List.mem_cons_self e t, ?_⟩
        simpa [Nat.max_eq_right hle] using h
      · refine Or.inl ?_
        simpa [Nat.max_eq_left hle] using h
    · exact Or.inr ⟨d, List.mem_cons_of_mem e hd, h⟩

lemma foldl_max_mem (f : Dim → ℕ) (l : List Dim) (hne : l ≠ []) :
    ∃ d ∈ l, l.foldl (fun m x => max m (f x)) 0 = f d := by
  rcases foldl_max_cases f l 0 with h | h
  · match l with
    | [] => exact absurd rfl hne
    | e :: t =>
      refine ⟨e, List.mem_cons_self e t, ?_⟩
      have hle := foldl_max_le_of_mem f (e :: t) 0 e (List.mem_cons_self e t)
      omega
  · exact h

lemma maxHeightOf_le (images : List Dim) (d : Dim) (hd : d ∈ images) :
    d.h ≤ maxHeightOf images :=
  foldl_max_le_of_mem (fun e => e.h) images 0 d hd

lemma maxHeightOf_mem (images : List Dim) (hne : images ≠ []) :
    ∃ d ∈ images, maxHeightOf images = d.h :=
  foldl_max_mem (fun e => e.h) images hne

lemma maxWidthOf_le (images : List Dim) (d : Dim) (hd : d ∈ images) :
    d.w ≤ maxWidthOf images :=
  foldl_max_le_of_mem (fun e => e.w) images 0 d hd

lemma maxWidthOf_mem (images : List Dim) (hne : images ≠ []) :
    ∃ d ∈ images, maxWidthOf images = d.w :=
  foldl_max_mem (fun e => e.w) images hne

lemma horizPlacementsFrom_length (gap : ℤ) (maxH : ℕ) (align : String)
    (l : List Dim) : ∀ x : ℤ, (horizPlacementsFrom gap maxH align l x).length = l.length := by
  induction l with
  | nil => intro x; rfl
  | cons d t ih =>
    intro x
    simp only [horizPlacementsFrom, List.length_cons, ih]

lemma vertPlacementsFrom_length (gap : ℤ) (maxW : ℕ) (align : String)
    (l : List Dim) : ∀ y : ℤ, (vertPlacementsFrom gap maxW align l y).length = l.length := by
  induction l with
  | nil => intro y; rfl
  | cons d t ih =>
    intro y
    simp only [vertPlacementsFrom, List.length_cons, ih]

lemma horizPlacementsFrom_getD (gap : ℤ) (maxH : ℕ) (align : String)
    (l : List Dim) : ∀ (x : ℤ) (i : ℕ), i < l.length →
      (horizPlacementsFrom gap maxH align l x).getD i ⟨0, 0⟩ =
        ⟨x + ((l.take i).map (fun d => (d.w : ℤ))).sum + gap * (i : ℤ),
         calculateAlignment (maxH : ℤ) (((l.getD i ⟨0, 0⟩).h : ℕ) : ℤ) align⟩ := by
  induction l with
  | nil =>
    intro x i hi
    simp at hi
  | cons d t ih =>
    intro x i hi
    cases i with
    | zero =>
      simp [horizPlacementsFrom]
    | succ j =>
      have hj : j < t.length := by simpa using hi
      simp only [horizPlacementsFrom, List.getD_cons_succ]
      rw [ih (x + (d.w : ℤ) + gap) j hj, Placement.mk.injEq]
      refine ⟨?_, rfl⟩
      simp only [List.take_succ_cons, List.map_cons, List.sum_cons]
      push_cast
      ring

lemma vertPlacementsFrom_getD (gap : ℤ) (maxW : ℕ) (align : String)
    (l : List Dim) : ∀ (y : ℤ) (i : ℕ), i < l.length →
      (vertPlacementsFrom gap maxW align l y).getD i ⟨0, 0⟩ =
        ⟨calculateAlignment (maxW : ℤ) (((l.getD i ⟨0, 0⟩).w : ℕ) : ℤ) align,
         y + ((l.take i).map (fun d => (d.h : ℤ))).sum + gap * (i : ℤ)⟩ := by
  induction l with
  | nil =>
    intro y i hi
    simp at hi
  | cons d t ih =>
    intro y i hi
    cases i with
    | zero =>
      simp [vertPlacementsFrom]
    | succ j =>
      have hj : j < t.length := by simpa using hi
      simp only [vertPlacementsFrom, List.getD_cons_succ]
      rw [ih (y + (d.h : ℤ) + gap) j hj, Placement.mk.injEq]
      refine ⟨rfl, ?_⟩
      simp only [List.take_succ_cons, List.map_cons, List.sum_cons]
      push_cast
      ring

/-- C3: for ≥ 2 inputs combined horizontally, the canvas is (sum of widths +
gap·(n−1)) wide and (max input height) tall; image `i` is placed at
x = (sum of the widths of the previous images) + gap·i — i.e. left-to-right
in input order with gaps only between consecutive images — and its vertical
offset follows the alignment policy: 0 for `start`, height − imageHeight for
`end`, and the truncated half difference for `center`. -/
theorem C3_horizontal_layout (images : List Dim) (gap : ℤ) (align : String)
    (h2 : 2 ≤ images.length) :
    (combineHorizontal images gap align).width =
        (images.map (fun d => (d.w : ℤ))).sum + gap * ((images.length : ℤ) - 1) ∧
    (∀ d ∈ images, (d.h : ℤ) ≤ (combineHorizontal images gap align).height) ∧
    (∃ d ∈ images, (combineHorizontal images gap align).height = (d.h : ℤ)) ∧
    (combineHorizontal images gap align).placements.length = images.length ∧
    ∀ i, i < images.length →
      ((combineHorizontal images gap align).placements.getD i ⟨0, 0⟩).x =
          ((images.take i).map (fun d => (d.w : ℤ))).sum + gap * (i : ℤ) ∧
      (align = "start" →
        ((combineHorizontal images gap align).placements.getD i ⟨0, 0⟩).y = 0) ∧
      (align = "end" →
        ((combineHorizontal images gap align).placements.getD i ⟨0, 0⟩).y =
          (combineHorizontal images gap align).height - ((images.getD i ⟨0, 0⟩).h : ℤ)) ∧
      (align = "center" →
        ((combineHorizontal images gap align).placements.getD i ⟨0, 0⟩).y =
          ((combineHorizontal images gap align).height -
            ((images.getD i ⟨0, 0⟩).h : ℤ)).tdiv 2) := by
  have hne : images ≠ [] := by
    intro h
    rw [h] at h2
    simp at h2
  have hpl : (combineHorizontal images gap align).placements =
      horizPlacementsFrom gap (maxHeightOf images) align images 0 := rfl
  refine ⟨horizTotalWidth_eq images gap hne, ?_, ?_, ?_, ?_⟩
  · intro d hd
    show (d.h : ℤ) ≤ ((maxHeightOf images : ℕ) : ℤ)
    exact_mod_cast maxHeightOf_le images d hd
  · obtain ⟨d, hd, hh⟩ := maxHeightOf_mem images hne
    refine ⟨d, hd, ?_⟩
    show ((maxHeightOf images : ℕ) : ℤ) = (d.h : ℤ)
    exact_mod_cast hh
  · exact horizPlacementsFrom_length gap (maxHeightOf images) align images 0
  · intro i hi
    have hg := horizPlacementsFrom_getD gap (maxHeightOf images) align images 0 i hi
    refine ⟨?_, ?_, ?_, ?_⟩
    · rw [hpl, hg]
      dsimp only
      ring
    · intro ha
      rw [hpl, hg]
      dsimp only
      simp [calculateAlignment, ha]
    · intro ha
      rw [hpl, hg]
      dsimp only
      simp [calculateAlignment, ha, combineHorizontal]
    · intro ha
      rw [hpl, hg]
      dsimp only
      simp [calculateAlignment, ha, combineHorizontal]

/-- Witness for C3 at two concrete 3×5 and 4×2 images with gap 1 and
`center` alignment. -/
theorem C3_witness :
    (combineHorizontal [⟨3, 5⟩, ⟨4, 2⟩] 1 "center").width = 8 ∧
    ((combineHorizontal [⟨3, 5⟩, ⟨4, 2⟩] 1 "center").placements.getD 1 ⟨0, 0⟩).x = 4 ∧
    ((combineHorizontal [⟨3, 5⟩, ⟨4, 2⟩] 1 "center").placements.getD 1 ⟨0, 0⟩).y = 1 := by
  obtain ⟨hw, -, -, -, hplace⟩ :=
    C3_horizontal_layout [⟨3, 5⟩, ⟨4, 2⟩] 1 "center" (by decide)
  obtain ⟨hx, -, -, hc⟩ := hplace 1 (by decide)
  refine ⟨?_, ?_, ?_⟩
  · rw [hw]; decide
  · rw [hx]; decide
  · rw [hc rfl]; decide

/-- C10: every alignment value other than `"start"` and `"end"` — the empty
string and unrecognized strings included — yields the centered offset
`(containerSize − itemSize) / 2`, and row/column composition therefore
centers each image along the cross axis; no alignment value is rejected. -/
theorem C10_default_center :
    (∀ (c i : ℤ) (align : String), align ≠ "start" → align ≠ "end" →
        calculateAlignment c i align = (c - i).tdiv 2) ∧
    (∀ (images : List Dim) (gap : ℤ) (align : String) (i : ℕ),
        align ≠ "start" → align ≠ "end" → i < images.length →
        ((combineHorizontal images gap align).placements.getD i ⟨0, 0⟩).y =
            ((maxHeightOf images : ℤ) - ((images.getD i ⟨0, 0⟩).h : ℤ)).tdiv 2 ∧
        ((combineVertical images gap align).placements.getD i ⟨0, 0⟩).x =
            ((maxWidthOf images : ℤ) - ((images.getD i ⟨0, 0⟩).w : ℤ)).tdiv 2) := by
  have hca : ∀ (c i : ℤ) (align : String), align ≠ "start" → align ≠ "end" →
      calculateAlignment c i align = (c - i).tdiv 2 := by
    intro c i al h1 h2
    simp [calculateAlignment, h1, h2]
  refine ⟨hca, ?_⟩
  intro images gap al i h1 h2 hi
  have hph : (combineHorizontal images gap al).placements =
      horizPlacementsFrom gap (maxHeightOf images) al images 0 := rfl
  have hpv : (combineVertical images gap al).placements =
      vertPlacementsFrom gap (maxWidthOf images) al images 0 := rfl
  constructor
  · rw [hph, horizPlacementsFrom_getD gap (maxHeightOf images) al images 0 i hi]
    dsimp only
    exact hca _ _ al h1 h2
  · rw [hpv, vertPlacementsFrom_getD gap (maxWidthOf images) al images 0 i hi]
    dsimp only
    exact hca _ _ al h1 h2

/-- Witness for C10 on the unrecognized alignment `"weird"` and the empty
alignment. -/
theorem C10_witness :
    calculateAlignment 10 4 "weird" = 3 ∧
    ((combineHorizontal [⟨3, 5⟩, ⟨4, 2⟩] 0 "").placements.getD 1 ⟨0, 0⟩).y = 1 := by
  obtain ⟨hca, hplace⟩ := C10_default_center
  constructor
  · rw [hca 10 4 "weird" (by decide) (by decide)]
    decide
  · rw [(hplace [⟨3, 5⟩, ⟨4, 2⟩] 0 "" 1 (by decide) (by decide) (by decide)).1]
    decide

lemma gridCols_pos (n : ℕ) (columns : ℤ) : 1 ≤ gridCols n columns := by
  unfold gridCols
  split_ifs with h1 h2 <;> omega

lemma gridPlacements_getD (f : ℕ → Placement) (n i : ℕ) (hi : i < n) :
    ((List.range n).map f).getD i ⟨0, 0⟩ = f i := by
  rw [List.getD_eq_getElem?_getD, List.getElem?_map, List.getElem?_range hi]
  rfl

lemma gridRows_ceil (n : ℕ) (columns : ℤ) :
    (n : ℤ) ≤ gridRows n columns * gridCols n columns ∧
    gridRows n columns * gridCols n columns < (n : ℤ) + gridCols n columns := by
  have hc1 : 1 ≤ gridCols n columns := gridCols_pos n columns
  have hn0 : (0 : ℤ) ≤ (n : ℤ) := Int.natCast_nonneg n
  have hnn : (0 : ℤ) ≤ (n : ℤ) + gridCols n columns - 1 := by omega
  have hrows : gridRows n columns = ((n : ℤ) + gridCols n columns - 1) / gridCols n columns := by
    rw [gridRows]
    exact Int.tdiv_eq_ediv hnn (by omega)
  have hdm := Int.ediv_add_emod ((n : ℤ) + gridCols n columns - 1) (gridCols n columns)
  have hr0 : 0 ≤ ((n : ℤ) + gridCols n columns - 1) % gridCols n columns :=
    Int.emod_nonneg _ (by omega)
  have hrlt : ((n : ℤ) + gridCols n columns - 1) % gridCols n columns < gridCols n columns :=
    Int.emod_lt_of_pos _ (by omega)
  have hcm : ((n : ℤ) + gridCols n columns - 1) / gridCols n columns * gridCols n columns =
      gridCols n columns * (((n : ℤ) + gridCols n columns - 1) / gridCols n columns) :=
    mul_comm _ _
  constructor
  · rw [hrows, hcm]
    linarith
  · rw [hrows, hcm]
    linarith

/-- C4: grid layout — auto column count `max 1 (round(n/2))` when unset,
`rows = ⌈n / cols⌉` (characterized by `n ≤ rows·cols < n + cols`), cell
dimensions are the maxima over the inputs, canvas size is
`cols·cellW + (cols−1)·gap` by `rows·cellH + (rows−1)·gap`, and image `i`
is centered within cell `(i / cols, i % cols)`.  In particular four
same-sized images in 2 columns give a canvas `2·w + gap` by `2·h + gap`. -/
theorem C4_grid_layout :
    (∀ (images : List Dim) (gap columns : ℤ), 2 ≤ images.length →
      (columns ≤ 0 →
        gridCols images.length columns = max 1 (((images.length : ℤ) + 1).tdiv 2)) ∧
      (images.length : ℤ) ≤
          gridRows images.length columns * gridCols images.length columns ∧
      gridRows images.length columns * gridCols images.length columns <
          (images.length : ℤ) + gridCols images.length columns ∧
      (∀ d ∈ images, d.w ≤ maxWidthOf images ∧ d.h ≤ maxHeightOf images) ∧
      (∃ d ∈ images, maxWidthOf images = d.w) ∧
      (∃ d ∈ images, maxHeightOf images = d.h) ∧
      (combineGrid images gap columns).width =
          gridCols images.length columns * (maxWidthOf images : ℤ) +
            (gridCols images.length columns - 1) * gap ∧
      (combineGrid images gap columns).height =
          gridRows images.length columns * (maxHeightOf images : ℤ) +
            (gridRows images.length columns - 1) * gap ∧
      (combineGrid images gap columns).placements.length = images.length ∧
      (∀ i, i < images.length →
        (combineGrid images gap columns).placements.getD i ⟨0, 0⟩ =
          ⟨(i : ℤ).tmod (gridCols images.length columns) *
                ((maxWidthOf images : ℤ) + gap) +
              ((maxWidthOf images : ℤ) - ((images.getD i ⟨0, 0⟩).w : ℤ)).tdiv 2,
           (i : ℤ).tdiv (gridCols images.length columns) *
                ((maxHeightOf images : ℤ) + gap) +
              ((maxHeightOf images : ℤ) - ((images.getD i ⟨0, 0⟩).h : ℤ)).tdiv 2⟩)) ∧
    (∀ (w₀ h₀ : ℕ) (g : ℤ),
      (combineGrid (List.replicate 4 ⟨w₀, h₀⟩) g 2).width = 2 * (w₀ : ℤ) + g ∧
      (combineGrid (List.replicate 4 ⟨w₀, h₀⟩) g 2).height = 2 * (h₀ : ℤ) + g) := by
  constructor
  · intro images gap columns h2
    have hne : images ≠ [] := by
      intro h
      rw [h] at h2
      simp at h2
    refine ⟨?_, (gridRows_ceil images.length columns).1,
      (gridRows_ceil images.length columns).2, ?_, ?_, ?_, rfl, rfl, ?_, ?_⟩
    · intro hcol
      rw [gridCols, if_pos hcol]
      rcases lt_or_le (((images.length : ℤ) + 1).tdiv 2) 1 with h | h
      · rw [if_pos h]
        omega
      · rw [if_neg (not_lt.mpr h)]
        omega
    · intro d hd
      exact ⟨maxWidthOf_le images d hd, maxHeightOf_le images d hd⟩
    · exact maxWidthOf_mem images hne
    · exact maxHeightOf_mem images hne
    · show ((List.range images.length).map _).length = images.length
      rw [List.length_map, List.length_range]
    · intro i hi
      have hpl : (combineGrid images gap columns).placements =
          (List.range images.length).map (fun j =>
            gridPlacement (maxWidthOf images) (maxHeightOf images) gap
              (gridCols images.length columns) (images.getD j ⟨0, 0⟩) j) := rfl
      rw [hpl, gridPlacements_getD _ images.length i hi]
      rfl
  · intro w₀ h₀ g
    have hmw : maxWidthOf (List.replicate 4 ⟨w₀, h₀⟩) = w₀ := by
      show max (max (max (max 0 w₀) w₀) w₀) w₀ = w₀
      omega
    have hmh : maxHeightOf (List.replicate 4 ⟨w₀, h₀⟩) = h₀ := by
      show max (max (max (max 0 h₀) h₀) h₀) h₀ = h₀
      omega
    have hcols : gridCols 4 2 = 2 := by decide
    have hrows : gridRows 4 2 = 2 := by decide
    constructor
    · have hw : (combineGrid (List.replicate 4 ⟨w₀, h₀⟩) g 2).width =
          gridCols 4 2 * (maxWidthOf (List.replicate 4 ⟨w₀, h₀⟩) : ℤ) +
            (gridCols 4 2 - 1) * g := rfl
      rw [hw, hmw, hcols]
      ring
    · have hh : (combineGrid (List.replicate 4 ⟨w₀, h₀⟩) g 2).height =
          gridRows 4 2 * (maxHeightOf (List.replicate 4 ⟨w₀, h₀⟩) : ℤ) +
            (gridRows 4 2 - 1) * g := rfl
      rw [hh, hmh, hrows]
      ring

/-- Witness for C4 on four concrete 10×20 images, gap 3, 2 columns. -/
theorem C4_witness :
    (4 : ℤ) ≤ gridRows 4 2 * gridCols 4 2 ∧
    (combineGrid (List.replicate 4 (⟨10, 20⟩ : Dim)) 3 2).width = 23 ∧
    (combineGrid (List.replicate 4 (⟨10, 20⟩ : Dim)) 3 2).height = 43 := by
  obtain ⟨hmain, hpart⟩ := C4_grid_layout
  have h := hmain (List.replicate 4 ⟨10, 20⟩) 3 2 (by decide)
  obtain ⟨hw, hh⟩ := hpart 10 20 3
  refine ⟨by simpa using h.2.1, by rw [hw]; decide, by rw [hh]; decide⟩

/-- C5: `CombineImages` rejects fewer than 2 inputs with the
not-enough-images error, and — given at least 2 (already readable) inputs —
rejects any direction other than `horizontal`, `vertical`, `grid` with the
invalid-direction error; in both cases no canvas is produced. -/
theorem C5_combine_validation :
    (∀ (images : List Dim) (direction align : String) (gap columns : ℤ),
        images.length < 2 →
        CombineImages images direction align gap columns =
          .error .notEnoughImages) ∧
    (∀ (images : List Dim) (direction align : String) (gap columns : ℤ),
        2 ≤ images.length → direction ≠ "horizontal" → direction ≠ "vertical" →
        direction ≠ "grid" →
        CombineImages images direction align gap columns =
          .error (.invalidDirection direction)) := by
  constructor
  · intro images direction align gap columns hlt
    simp [CombineImages, hlt]
  · intro images direction align gap columns hge h1 h2 h3
    have hlt : ¬ images.length < 2 := by omega
    simp [CombineImages, hlt, h1, h2, h3]

/-- Witness for C5: the empty input list fails with `notEnoughImages`, and
two inputs with direction `"diagonal"` fail with `invalidDirection`. -/
theorem C5_witness :
    CombineImages [] "horizontal" "center" 0 0 = .error .notEnoughImages ∧
    CombineImages [⟨1, 1⟩, ⟨2, 2⟩] "diagonal" "center" 0 0 =
      .error (.invalidDirection "diagonal") :=
  ⟨C5_combine_validation.1 [] "horizontal" "center" 0 0 (by decide),
   C5_combine_validation.2 [⟨1, 1⟩, ⟨2, 2⟩] "diagonal" "center" 0 0
     (by decide) (by decide) (by decide) (by decide)⟩

/-! ### Output-writing effect model (combine.go 70–95, main.go 450–473)

Both `CombineImages` and `MakeTransparent` end with the same effect
sequence: `os.MkdirAll` (for the output's parent), `os.Create` on the
output path, then `png.Encode`, returning early on the first failure and
never removing the file `os.Create` has created.  Each external step's
success is an environment boolean, and `fileWritten` records whether the
output file exists on disk after the call (`os.Create` creates/truncates
it; there is no cleanup on a later failure). -/

/-- Outcomes of the three external effect steps of the save sequence. -/
structure WriteEnv where
  mkdirOk : Bool
  createOk : Bool
  encodeOk : Bool
deriving DecidableEq

/-- Result of an invocation: did it report success, and does an output file
exist afterwards. -/
structure WriteOutcome where
  success : Bool
  fileWritten : Bool
deriving DecidableEq

/-- The shared save tail: `os.MkdirAll`, then `os.Create`, then
`png.Encode`, each returning an error immediately on failure.  After a
successful `os.Create`, the output file exists even if `png.Encode` then
fails (`defer outFile.Close()` closes but never removes it). -/
def savePNGOutput (env : WriteEnv) : WriteOutcome :=
  if env.mkdirOk = false then ⟨false, false⟩
  else if env.createOk = false then ⟨false, false⟩
  else if env.encodeOk = false then ⟨false, true⟩
  else ⟨true, true⟩

/-- A whole composition / chroma-key invocation: the pure phases before the
save tail (validation, color parsing, decoding, pixel processing) either
fail — writing nothing — or reach `savePNGOutput`. -/
def operationOutcome (preOk : Bool) (env : WriteEnv) : WriteOutcome :=
  if preOk = false then ⟨false, false⟩ else savePNGOutput env

/-- C6 (counterexample): when the pure phases and `os.MkdirAll` and
`os.Create` succeed but `png.Encode` fails, the invocation reports an error
*and* an output file has been written — the error path is not output-free. -/
theorem C6_counterexample :
    (operationOutcome true ⟨true, true, false⟩).success = false ∧
    (operationOutcome true ⟨true, true, false⟩).fileWritten = true := by
  decide

/-- C6 (amended): an invocation succeeds exactly when every phase succeeds,
and an output file exists exactly when the pure phases, `os.MkdirAll` and
`os.Create` succeeded — so every error path *before output-file creation*
writes nothing, while an encode failure after creation leaves a file. -/
theorem C6_write_atomicity (preOk : Bool) (env : WriteEnv) :
    ((operationOutcome preOk env).success = true ↔
      preOk = true ∧ env.mkdirOk = true ∧ env.createOk = true ∧
        env.encodeOk = true) ∧
    ((operationOutcome preOk env).fileWritten = true ↔
      preOk = true ∧ env.mkdirOk = true ∧ env.createOk = true) := by
  obtain ⟨m, c, e⟩ := env
  cases preOk <;> cases m <;> cases c <;> cases e <;> decide

/-! ### Transform command validation (runTransform, internal/cli) -/

/-- The transform command's flag set. -/
structure TransformFlags where
  resize : String
  fit : String
  crop : String
  rotate : ℤ
  flip : Bool
  flop : Bool
deriving DecidableEq

/-- The early-error cases of `runTransform` before `image.Transform` runs. -/
inductive TransformCmdError where
  | fileNotFound
  | noOperation
  | invalidRotation
deriving DecidableEq

/-- The validation prefix of `runTransform`: missing input file, then the
no-operation check (`resize == "" && crop == "" && rotate == 0 && !flip &&
!flop`), then the rotation range check; `none` means control reaches
`image.Transform`.  A `some` result is an early `return err` — no
transformation is performed. -/
def runTransformValidation (inputExists : Bool) (fl : TransformFlags) :
    Option TransformCmdError :=
  if inputExists = false then some .fileNotFound
  else if fl.resize = "" ∧ fl.crop = "" ∧ fl.rotate = 0 ∧ fl.flip = false ∧
      fl.flop = false then
    some .noOperation
  else if fl.rotate < -360 ∨ 360 < fl.rotate then some .invalidRotation
  else none

/-- C7: whenever the resize and crop specs are empty, the rotation is zero
and both flips are off, `runTransform` (on an existing input file) rejects
the request with the no-operation error and never reaches
`image.Transform`. -/
theorem C7_no_operation (fl : TransformFlags)
    (h1 : fl.resize = "") (h2 : fl.crop = "") (h3 : fl.rotate = 0)
    (h4 : fl.flip = false) (h5 : fl.flop = false) :
    runTransformValidation true fl = some .noOperation := by
  simp [runTransformValidation, h1, h2, h3, h4, h5]

/-- Witness for C7 on the all-defaults flag set. -/
theorem C7_witness :
    runTransformValidation true ⟨"", "inside", "", 0, false, false⟩ =
      some .noOperation :=
  C7_no_operation ⟨"", "inside", "", 0, false, false⟩ rfl rfl rfl rfl rfl

/-! ### Go standard-library string helpers

`strings.Split` (single-rune separator), `strings.TrimSpace`,
`strconv.Atoi` and `strings.ToLower`/`filepath.Ext` as used by the
transform parsing code, modelled as structural recursions over the rune
list of a string. -/

/-- Model of `unicode.IsSpace` over the rune set Go's `strings.TrimSpace` trims. -/
def goIsSpace (c : Char) : Bool :=
  c = ' ' ∨ c = '\t' ∨ c = '\n' ∨ c = Char.ofNat 11 ∨ c = Char.ofNat 12 ∨
  c = '\r' ∨ c = Char.ofNat 0x85 ∨ c = Char.ofNat 0xA0 ∨
  c = Char.ofNat 0x1680 ∨ (Char.ofNat 0x2000 ≤ c ∧ c ≤ Char.ofNat 0x200A) ∨
  c = Char.ofNat 0x2028 ∨ c = Char.ofNat 0x2029 ∨ c = Char.ofNat 0x202F ∨
  c = Char.ofNat 0x205F ∨ c = Char.ofNat 0x3000

/-- Model of `strings.TrimSpace`. -/
def goTrimSpace (l : List Char) : List Char :=
  ((l.dropWhile goIsSpace).reverse.dropWhile goIsSpace).reverse

/-- Model of `strings.Split` with a one-rune separator: the substrings between
occurrences of `sep`, empties preserved; `Split("", sep) = [""]`. -/
def goSplit (sep : Char) : List Char → List (List Char)
  | [] => [[]]
  | c :: rest =>
    if c = sep then [] :: goSplit sep rest
    else
      match goSplit sep rest with
      | [] => [[c]]
      | p :: ps => (c :: p) :: ps

/-- Decimal digit test. -/
def isDigitChar (c : Char) : Bool :=
  '0' ≤ c ∧ c ≤ '9'

/-- Value of a digit string. -/
def digitsVal (ds : List Char) : ℕ :=
  ds.foldl (fun acc c => 10 * acc + (c.toNat - 48)) 0

/-- The digits phase of `strconv.ParseInt(s, 10, 64)`: at least one decimal
digit, and the magnitude must fit the signed 64-bit range (cutoff `2^63`
for a negative number, `2^63 − 1` otherwise). -/
def goParseDigits (neg : Bool) (digits : List Char) : Option ℤ :=
  if digits = [] then none
  else if digits.all isDigitChar then
    if neg then
      if (2 : ℤ) ^ 63 < (digitsVal digits : ℤ) then none
      else some (-(digitsVal digits : ℤ))
    else
      if (2 : ℤ) ^ 63 - 1 < (digitsVal digits : ℤ) then none
      else some (digitsVal digits : ℤ)
  else none

/-- Model of `strconv.Atoi`: an optional single `+`/`-` sign, then digits. -/
def goAtoiChars (l : List Char) : Option ℤ :=
  match l with
  | [] => none
  | c :: rest =>
    if c = '-' then goParseDigits true rest
    else if c = '+' then goParseDigits false rest
    else goParseDigits false l

/-- The distinct parse errors of `applyCrop` (main.go 260–284). -/
inductive CropError where
  | badFormat
  | badLeft
  | badTop
  | badWidth
  | badHeight
deriving DecidableEq

/-- The field chain of `applyCrop` on the comma-split parts: exactly four
fields are required, then `strconv.Atoi(strings.TrimSpace(...))` on each in
order, with a distinct error per failing step. -/
def parseCropParts (parts : List (List Char)) : Except CropError (ℤ × ℤ × ℤ × ℤ) :=
  match parts with
  | [p1, p2, p3, p4] =>
    match goAtoiChars (goTrimSpace p1) with
    | none => .error .badLeft
    | some left =>
      match goAtoiChars (goTrimSpace p2) with
      | none => .error .badTop
      | some top =>
        match goAtoiChars (goTrimSpace p3) with
        | none => .error .badWidth
        | some width =>
          match goAtoiChars (goTrimSpace p4) with
          | none => .error .badHeight
          | some height => .ok (left, top, width, height)
  | _ => .error .badFormat

/-- The crop-spec parsing of `applyCrop`: `strings.Split(cropSpec, ",")`
followed by the four-field chain. -/
def parseCropSpec (s : String) : Except CropError (ℤ × ℤ × ℤ × ℤ) :=
  parseCropParts (goSplit ',' s.data)

/-- C9 (counterexample): `"0,0,0,9999999999999999999"` is a string of
exactly four comma-separated integers (the fourth is 19 nines, all decimal
digits), yet crop-spec parsing rejects it — `strconv.Atoi` fails with a
range error beyond the signed 64-bit bound. -/
theorem C9_counterexample :
    (goSplit ',' "0,0,0,9999999999999999999".data).length = 4 ∧
    (∀ p ∈ goSplit ',' "0,0,0,9999999999999999999".data,
      p ≠ [] ∧ p.all isDigitChar = true) ∧
    parseCropSpec "0,0,0,9999999999999999999" = .error .badHeight := by
  refine ⟨by decide, by decide, by rfl⟩

/-- The integer denoted by an optional sign and a digit string. -/
def signedIntValue (sign ds : List Char) : ℤ :=
  if sign = ['-'] then -(digitsVal ds : ℤ) else (digitsVal ds : ℤ)

/-- Specification-side shape of a field `strconv.Atoi` accepts: an optional
single `+`/`-` sign followed by at least one decimal digit, denoting a
value within the signed 64-bit range. -/
def IsInt64Lit (l : List Char) : Prop :=
  ∃ sign ds, l = sign ++ ds ∧ (sign = [] ∨ sign = ['+'] ∨ sign = ['-']) ∧
    ds ≠ [] ∧ ds.all isDigitChar = true ∧
    -(2 ^ 63) ≤ signedIntValue sign ds ∧ signedIntValue sign ds ≤ 2 ^ 63 - 1

lemma digit_not_sign (c : Char) (h : isDigitChar c = true) :
    c ≠ '-' ∧ c ≠ '+' := by
  constructor
  · intro he
    rw [he] at h
    exact absurd h (by decide)
  · intro he
    rw [he] at h
    exact absurd h (by decide)

lemma goParseDigits_some_iff (neg : Bool) (ds : List Char) :
    (∃ z, goParseDigits neg ds = some z) ↔
      ds ≠ [] ∧ ds.all isDigitChar = true ∧
        (if neg then (digitsVal ds : ℤ) ≤ 2 ^ 63
         else (digitsVal ds : ℤ) ≤ 2 ^ 63 - 1) := by
  unfold goParseDigits
  split_ifs <;> simp_all

lemma signedIntValue_neg (ds : List Char) :
    signedIntValue ['-'] ds = -(digitsVal ds : ℤ) := by
  simp [signedIntValue]

lemma signedIntValue_plus (ds : List Char) :
    signedIntValue ['+'] ds = (digitsVal ds : ℤ) := by
  simp [signedIntValue]

lemma signedIntValue_nil (ds : List Char) :
    signedIntValue [] ds = (digitsVal ds : ℤ) := by
  simp [signedIntValue]

lemma goAtoiChars_some_iff (l : List Char) :
    (∃ z, goAtoiChars l = some z) ↔ IsInt64Lit l := by
  constructor
  · rintro ⟨z, hz⟩
    match l with
    | [] => simp [goAtoiChars] at hz
    | c :: rest =>
      by_cases h1 : c = '-'
      · subst h1
        simp only [goAtoiChars, if_pos rfl] at hz
        obtain ⟨hne, hall, hrange⟩ := (goParseDigits_some_iff true rest).mp ⟨z, hz⟩
        simp at hrange
        refine ⟨['-'], rest, rfl, Or.inr (Or.inr rfl), hne, hall, ?_, ?_⟩
        · rw [signedIntValue_neg]
          omega
        · rw [signedIntValue_neg]
          have hnn : (0 : ℤ) ≤ (digitsVal rest : ℤ) := Int.natCast_nonneg _
          omega
      · by_cases h2 : c = '+'
        · subst h2
          simp only [goAtoiChars, if_neg (by decide : ¬ ('+' : Char) = '-'),
            if_pos rfl] at hz
          obtain ⟨hne, hall, hrange⟩ := (goParseDigits_some_iff false rest).mp ⟨z, hz⟩
          simp at hrange
          refine ⟨['+'], rest, rfl, Or.inr (Or.inl rfl), hne, hall, ?_, ?_⟩
          · rw [signedIntValue_plus]
            have hnn : (0 : ℤ) ≤ (digitsVal rest : ℤ) := Int.natCast_nonneg _
            omega
          · rw [signedIntValue_plus]
            omega
        · simp only [goAtoiChars, if_neg h1, if_neg h2] at hz
          obtain ⟨hne, hall, hrange⟩ :=
            (goParseDigits_some_iff false (c :: rest)).mp ⟨z, hz⟩
          simp at hrange
          refine ⟨[], c :: rest, rfl, Or.inl rfl, hne, hall, ?_, ?_⟩
          · rw [signedIntValue_nil]
            have hnn : (0 : ℤ) ≤ (digitsVal (c :: rest) : ℤ) := Int.natCast_nonneg _
            omega
          · rw [signedIntValue_nil]
            omega
  · rintro ⟨sign, ds, hl, hsign, hne, hall, hlo, hhi⟩
    subst hl
    obtain ⟨c, rest, rfl⟩ : ∃ c rest, ds = c :: rest := by
      cases ds with
      | nil => exact absurd rfl hne
      | cons c rest => exact ⟨c, rest, rfl⟩
    rcases hsign with rfl | rfl | rfl
    · have hc : isDigitChar c = true := by
        have := List.all_eq_true.mp hall c (List.mem_cons_self c rest)
        simpa using this
      obtain ⟨hcm, hcp⟩ := digit_not_sign c hc
      simp only [List.nil_append, goAtoiChars, if_neg hcm, if_neg hcp]
      refine (goParseDigits_some_iff false (c :: rest)).mpr ⟨by simp, hall, ?_⟩
      rw [signedIntValue_nil] at hhi
      simpa using hhi
    · simp only [List.cons_append, List.nil_append, goAtoiChars,
        if_neg (by decide : ¬ ('+' : Char) = '-'), if_pos rfl]
      refine (goParseDigits_some_iff false (c :: rest)).mpr ⟨by simp, hall, ?_⟩
      rw [signedIntValue_plus] at hhi
      simpa using hhi
    · simp only [List.cons_append, List.nil_append, goAtoiChars, if_pos rfl]
      refine (goParseDigits_some_iff true (c :: rest)).mpr ⟨by simp, hall, ?_⟩
      rw [signedIntValue_neg] at hlo
      simpa using (show (digitsVal (c :: rest) : ℤ) ≤ 2 ^ 63 by omega)

lemma list_eq_four {β : Type} (L : List β) (h : L.length = 4) :
    ∃ a b c d, L = [a, b, c, d] := by
  rcases L with _ | ⟨a, L⟩
  · simp at h
  rcases L with _ | ⟨b, L⟩
  · simp at h
  rcases L with _ | ⟨c, L⟩
  · simp at h
  rcases L with _ | ⟨d, L⟩
  · simp at h
  rcases L with _ | ⟨e, L⟩
  · exact ⟨a, b, c, d, rfl⟩
  · simp at h

lemma parseCropParts_badFormat (parts : List (List Char))
    (h : parts.length ≠ 4) : parseCropParts parts = .error .badFormat := by
  rcases parts with _ | ⟨a, _ | ⟨b, _ | ⟨c, _ | ⟨d, _ | ⟨e, rest⟩⟩⟩⟩⟩
  · rfl
  · rfl
  · rfl
  · rfl
  · simp at h
  · rfl

lemma parseCropParts_field_error (p1 p2 p3 p4 : List Char) :
    parseCropParts [p1, p2, p3, p4] ≠ .error .badFormat := by
  rcases h1 : goAtoiChars (goTrimSpace p1) with _ | z1 <;>
    rcases h2 : goAtoiChars (goTrimSpace p2) with _ | z2 <;>
      rcases h3 : goAtoiChars (goTrimSpace p3) with _ | z3 <;>
        rcases h4 : goAtoiChars (goTrimSpace p4) with _ | z4 <;>
          simp [parseCropParts, h1, h2, h3, h4]

lemma parseCropParts_ok_iff (p1 p2 p3 p4 : List Char) :
    (∃ v, parseCropParts [p1, p2, p3, p4] = .ok v) ↔
      (∃ z, goAtoiChars (goTrimSpace p1) = some z) ∧
      (∃ z, goAtoiChars (goTrimSpace p2) = some z) ∧
      (∃ z, goAtoiChars (goTrimSpace p3) = some z) ∧
      (∃ z, goAtoiChars (goTrimSpace p4) = some z) := by
  rcases h1 : goAtoiChars (goTrimSpace p1) with _ | z1 <;>
    rcases h2 : goAtoiChars (goTrimSpace p2) with _ | z2 <;>
      rcases h3 : goAtoiChars (goTrimSpace p3) with _ | z3 <;>
        rcases h4 : goAtoiChars (goTrimSpace p4) with _ | z4 <;>
          simp [parseCropParts, h1, h2, h3, h4]

lemma goAtoiChars_none_iff (l : List Char) :
    goAtoiChars l = none ↔ ¬ IsInt64Lit l := by
  rw [← goAtoiChars_some_iff]
  rcases h : goAtoiChars l with _ | z <;> simp [h]

lemma parseCropParts_first_error (p1 p2 p3 p4 : List Char) :
    (goAtoiChars (goTrimSpace p1) = none →
      parseCropParts [p1, p2, p3, p4] = .error .badLeft) ∧
    ((∃ z, goAtoiChars (goTrimSpace p1) = some z) →
      goAtoiChars (goTrimSpace p2) = none →
      parseCropParts [p1, p2, p3, p4] = .error .badTop) ∧
    ((∃ z, goAtoiChars (goTrimSpace p1) = some z) →
      (∃ z, goAtoiChars (goTrimSpace p2) = some z) →
      goAtoiChars (goTrimSpace p3) = none →
      parseCropParts [p1, p2, p3, p4] = .error .badWidth) ∧
    ((∃ z, goAtoiChars (goTrimSpace p1) = some z) →
      (∃ z, goAtoiChars (goTrimSpace p2) = some z) →
      (∃ z, goAtoiChars (goTrimSpace p3) = some z) →
      goAtoiChars (goTrimSpace p4) = none →
      parseCropParts [p1, p2, p3, p4] = .error .badHeight) := by
  rcases h1 : goAtoiChars (goTrimSpace p1) with _ | z1 <;>
    rcases h2 : goAtoiChars (goTrimSpace p2) with _ | z2 <;>
      rcases h3 : goAtoiChars (goTrimSpace p3) with _ | z3 <;>
        rcases h4 : goAtoiChars (goTrimSpace p4) with _ | z4 <;>
          simp [parseCropParts, h1, h2, h3, h4]

/-- C9 (amended): crop-spec parsing succeeds exactly when the spec splits
on commas into exactly four fields each of which, after trimming space, is
an optionally signed decimal integer **within the signed 64-bit range**;
a wrong field count is rejected with the format error, and with four
fields the parse is rejected with the error belonging to the first field —
in left, top, width, height order — that fails to parse. -/
theorem C9_crop_characterization (s : String) :
    ((goSplit ',' s.data).length ≠ 4 → parseCropSpec s = .error .badFormat) ∧
    ((goSplit ',' s.data).length = 4 →
      ((∃ v, parseCropSpec s = .ok v) ↔
        ∀ p ∈ goSplit ',' s.data, IsInt64Lit (goTrimSpace p)) ∧
      ∀ p1 p2 p3 p4, goSplit ',' s.data = [p1, p2, p3, p4] →
        (¬ IsInt64Lit (goTrimSpace p1) → parseCropSpec s = .error .badLeft) ∧
        (IsInt64Lit (goTrimSpace p1) → ¬ IsInt64Lit (goTrimSpace p2) →
          parseCropSpec s = .error .badTop) ∧
        (IsInt64Lit (goTrimSpace p1) → IsInt64Lit (goTrimSpace p2) →
          ¬ IsInt64Lit (goTrimSpace p3) → parseCropSpec s = .error .badWidth) ∧
        (IsInt64Lit (goTrimSpace p1) → IsInt64Lit (goTrimSpace p2) →
          IsInt64Lit (goTrimSpace p3) → ¬ IsInt64Lit (goTrimSpace p4) →
          parseCropSpec s = .error .badHeight)) := by
  constructor
  · intro h
    exact parseCropParts_badFormat _ h
  · intro h4
    obtain ⟨a, b, c, d, hL⟩ := list_eq_four _ h4
    have hps : parseCropSpec s = parseCropParts [a, b, c, d] := by
      unfold parseCropSpec
      rw [hL]
    constructor
    · rw [hps, hL, parseCropParts_ok_iff, goAtoiChars_some_iff, goAtoiChars_some_iff,
        goAtoiChars_some_iff, goAtoiChars_some_iff]
      simp [List.forall_mem_cons]
    · intro p1 p2 p3 p4 hEq
      have hps4 : parseCropSpec s = parseCropParts [p1, p2, p3, p4] := by
        unfold parseCropSpec
        rw [hEq]
      refine ⟨?_, ?_, ?_, ?_⟩
      · intro hn1
        rw [hps4]
        exact (parseCropParts_first_error p1 p2 p3 p4).1
          ((goAtoiChars_none_iff _).mpr hn1)
      · intro hi1 hn2
        rw [hps4]
        exact (parseCropParts_first_error p1 p2 p3 p4).2.1
          ((goAtoiChars_some_iff _).mpr hi1) ((goAtoiChars_none_iff _).mpr hn2)
      · intro hi1 hi2 hn3
        rw [hps4]
        exact (parseCropParts_first_error p1 p2 p3 p4).2.2.1
          ((goAtoiChars_some_iff _).mpr hi1) ((goAtoiChars_some_iff _).mpr hi2)
          ((goAtoiChars_none_iff _).mpr hn3)
      · intro hi1 hi2 hi3 hn4
        rw [hps4]
        exact (parseCropParts_first_error p1 p2 p3 p4).2.2.2
          ((goAtoiChars_some_iff _).mpr hi1) ((goAtoiChars_some_iff _).mpr hi2)
          ((goAtoiChars_some_iff _).mpr hi3) ((goAtoiChars_none_iff _).mpr hn4)

/-- Witness for C9: a two-field spec gives the format error; the canonical
four-integer spec `"1,2,3,4"` satisfies the acceptance characterization;
and a non-numeric first field is rejected with the left-field error. -/
theorem C9_witness :
    parseCropSpec "1,2" = .error .badFormat ∧
    (∀ p ∈ goSplit ',' "1,2,3,4".data, IsInt64Lit (goTrimSpace p)) ∧
    parseCropSpec "x,2,3,4" = .error .badLeft :=
  ⟨(C9_crop_characterization "1,2").1 (by decide),
   ((((C9_crop_characterization "1,2,3,4").2 (by decide)).1).mp ⟨(1, 2, 3, 4), rfl⟩),
   ((((C9_crop_characterization "x,2,3,4").2 (by decide)).2)
     [Char.ofNat 120] [Char.ofNat 50] [Char.ofNat 51] [Char.ofNat 52] (by decide)).1
     ((goAtoiChars_none_iff (goTrimSpace [Char.ofNat 120])).mp rfl)⟩

/-! ### Transform engine (internal/image: Transform, applyCrop, applyResize)

The third-party `imaging` calls are abstracted as an interface over an
arbitrary raster type `α`; the repository's own code — parsing, the fit
switch, and above all the fixed operation order crop → resize → rotate →
flip → flop with per-operation skip conditions — is modelled concretely.
`strconv.ParseFloat` (used only for percentage resize specs) is likewise an
interface member, and the `float64` size/aspect arithmetic is rendered
exactly in `ℚ` with `int(...)` truncation toward zero. -/

/-- The `imaging` library operations `Transform` invokes, plus
`strconv.ParseFloat`, over an abstract raster type. -/
structure ImagingLib (α : Type) where
  crop : α → ℤ → ℤ → ℤ → ℤ → α
  resize : α → ℤ → ℤ → α
  fit : α → ℤ → ℤ → α
  fill : α → ℤ → ℤ → α
  rotate : α → ℤ → α
  flipV : α → α
  flipH : α → α
  dims : α → ℕ × ℕ
  parseFloat : String → Option ℚ

/-- Model of `TransformOptions` (internal/image). -/
structure TransformOptions where
  resize : String
  fit : String
  crop : String
  rotate : ℤ
  flip : Bool
  flop : Bool
deriving DecidableEq

/-- Model of `TransformResult` (internal/image). -/
structure TransformResult where
  width : ℕ
  height : ℕ
  format : String
deriving DecidableEq

/-- Go `int(x)` conversion of a float: truncation toward zero. -/
def ratTrunc (q : ℚ) : ℤ :=
  q.num.tdiv (q.den : ℤ)

/-- ASCII case of `strings.ToLower` (the resize grammar it feeds is pure
ASCII). -/
def goToLowerChar (c : Char) : Char :=
  if 'A' ≤ c ∧ c ≤ 'Z' then Char.ofNat (c.toNat + 32) else c

/-- Model of `strings.ToLower`. -/
def goToLower (l : List Char) : List Char :=
  l.map goToLowerChar

/-- Model of `strings.HasSuffix(s, "%")`. -/
def hasPercentSuffix (l : List Char) : Bool :=
  l.getLast? = some '%'

/-- Model of `strings.TrimPrefix(filepath.Ext(path), ".")`: the part of the final
path element after its last dot, empty when there is no dot. -/
def goFormatTag (path : String) : String :=
  let revName := path.data.reverse.takeWhile (fun c => c ≠ '/')
  if revName.contains '.' then
    String.mk (revName.takeWhile (fun c => c ≠ '.')).reverse
  else ""

/-- Model of `applyCrop` (internal/image): parse the spec, then
`imaging.Crop(img, image.Rect(left, top, left+width, top+height))`. -/
def applyCrop {α : Type} (lib : ImagingLib α) (img : α) (cropSpec : String) :
    Except CropError α :=
  match parseCropSpec cropSpec with
  | .error e => .error e
  | .ok (left, top, width, height) =>
    .ok (lib.crop img left top (left + width) (top + height))

/-- The distinct failures of `applyResize`. -/
inductive ResizeError where
  | invalidPercent
  | invalidSizeFormat
  | invalidWidth
  | invalidHeight
  | invalidFit (fit : String)
deriving DecidableEq

/-- Model of `applyResize` (internal/image): a `%`-suffixed spec scales both original
dimensions by the parsed percentage; otherwise the lowercased spec must
split on `x` into two `Atoi`-parsable fields; then the fit switch selects
the library call (`inside` and the empty fit behave like `contain`;
`outside` compares the original and target aspect ratios; any other fit
fails). -/
def applyResize {α : Type} (lib : ImagingLib α) (img : α)
    (sizeSpec fit : String) : Except ResizeError α :=
  let origW := (lib.dims img).1
  let origH := (lib.dims img).2
  let dimsR : Except ResizeError (ℤ × ℤ) :=
    if hasPercentSuffix sizeSpec.data then
      match lib.parseFloat (String.mk sizeSpec.data.dropLast) with
      | none => .error .invalidPercent
      | some pct =>
        .ok (ratTrunc ((origW : ℚ) * pct / 100), ratTrunc ((origH : ℚ) * pct / 100))
    else
      match goSplit 'x' (goToLower sizeSpec.data) with
      | [pw, ph] =>
        match goAtoiChars (goTrimSpace pw) with
        | none => .error .invalidWidth
        | some w =>
          match goAtoiChars (goTrimSpace ph) with
          | none => .error .invalidHeight
          | some h => .ok (w, h)
      | _ => .error .invalidSizeFormat
  match dimsR with
  | .error e => .error e
  | .ok (width, height) =>
    if fit = "fill" then .ok (lib.resize img width height)
    else if fit = "contain" then .ok (lib.fit img width height)
    else if fit = "cover" then .ok (lib.fill img width height)
    else if fit = "inside" ∨ fit = "" then .ok (lib.fit img width height)
    else if fit = "outside" then
      if (origW : ℚ) / (origH : ℚ) > (width : ℚ) / (height : ℚ) then
        .ok (lib.resize img 0 height)
      else .ok (lib.resize img width 0)
    else .error (.invalidFit fit)

/-- Failures of `Transform` (wrapping the step that failed). -/
inductive TransformError where
  | cropFailed (e : CropError)
  | resizeFailed (e : ResizeError)
deriving DecidableEq

/-- Model of `Transform` (internal/image) on a decoded source raster: crop if a crop
spec is set, then resize if a resize spec is set, then rotate if the angle
is nonzero, then flip vertically if requested, then flop horizontally if
requested; on success returns the final raster with its dimensions and the
output-extension format tag.  (Opening and saving are I/O around this
pipeline.) -/
def Transform {α : Type} (lib : ImagingLib α) (src : α)
    (opts : TransformOptions) (outputPath : String) :
    Except TransformError (α × TransformResult) :=
  let step1 : Except TransformError α :=
    if opts.crop ≠ "" then
      match applyCrop lib src opts.crop with
      | .error e => .error (.cropFailed e)
      | .ok r => .ok r
    else .ok src
  match step1 with
  | .error e => .error e
  | .ok r1 =>
    let step2 : Except TransformError α :=
      if opts.resize ≠ "" then
        match applyResize lib r1 opts.resize opts.fit with
        | .error e => .error (.resizeFailed e)
        | .ok r => .ok r
      else .ok r1
    match step2 with
    | .error e => .error e
    | .ok r2 =>
      let r3 := if opts.rotate ≠ 0 then lib.rotate r2 opts.rotate else r2
      let r4 := if opts.flip then lib.flipV r3 else r3
      let r5 := if opts.flop then lib.flipH r4 else r4
      .ok (r5, ⟨(lib.dims r5).1, (lib.dims r5).2, goFormatTag outputPath⟩)

/-- C8: whenever the requested crop and resize steps succeed (and are
skipped exactly when their spec is empty), `Transform` returns the raster
obtained by applying, in this order, crop, resize, rotate (skipped when the
angle is 0), vertical flip (skipped when off) and horizontal flop (skipped
when off), together with that raster's width and height and the output
format tag. -/
theorem C8_transform_order {α : Type} (lib : ImagingLib α) (src : α)
    (opts : TransformOptions) (outputPath : String) (r1 r2 : α)
    (hc : opts.crop ≠ "" → applyCrop lib src opts.crop = .ok r1)
    (hc0 : opts.crop = "" → r1 = src)
    (hr : opts.resize ≠ "" → applyResize lib r1 opts.resize opts.fit = .ok r2)
    (hr0 : opts.resize = "" → r2 = r1) :
    Transform lib src opts outputPath =
      .ok (let r3 := if opts.rotate ≠ 0 then lib.rotate r2 opts.rotate else r2
           let r4 := if opts.flip then lib.flipV r3 else r3
           let r5 := if opts.flop then lib.flipH r4 else r4
           (r5, ⟨(lib.dims r5).1, (lib.dims r5).2, goFormatTag outputPath⟩)) := by
  by_cases hcrop : opts.crop = ""
  · have e1 := hc0 hcrop
    subst e1
    by_cases hres : opts.resize = ""
    · have e2 := hr0 hres
      subst e2
      simp [Transform, hcrop, hres]
    · have h2 := hr hres
      simp [Transform, hcrop, hres, h2]
  · have h1 := hc hcrop
    by_cases hres : opts.resize = ""
    · have e2 := hr0 hres
      subst e2
      simp [Transform, hcrop, hres, h1]
    · have h2 := hr hres
      simp [Transform, hcrop, hres, h1, h2]

/-- An instrumented library instance over operation traces: each call
prepends its name, so the trace records the order of application. -/
def traceLib : ImagingLib (List String) :=
  { crop := fun img _ _ _ _ => "crop" :: img
    resize := fun img _ _ => "resize" :: img
    fit := fun img _ _ => "fit" :: img
    fill := fun img _ _ => "fill" :: img
    rotate := fun img _ => "rotate" :: img
    flipV := fun img => "flipV" :: img
    flipH := fun img => "flipH" :: img
    dims := fun img => (img.length, 0)
    parseFloat := fun _ => none }

/-- Witness for C8: with a crop spec, a `10x20` fill resize, rotation 90 and
a vertical flip (no flop), the trace comes out in exactly the order
crop, resize, rotate, flipV. -/
theorem C8_witness :
    Transform traceLib [] ⟨"10x20", "fill", "1,2,3,4", 90, true, false⟩ "out.png" =
      .ok (["flipV", "rotate", "resize", "crop"], ⟨4, 0, "png"⟩) := by
  have h := C8_transform_order traceLib []
    ⟨"10x20", "fill", "1,2,3,4", 90, true, false⟩ "out.png"
    ["crop"] ["resize", "crop"]
    (fun _ => rfl) (fun hcon => absurd hcon (by decide))
    (fun _ => rfl) (fun hcon => absurd hcon (by decide))
  exact h
